import Mathlib

/-!
Verification of the redpen annotation core against its specification.

The embedding follows the TypeScript sources:
  * `src/components/AssistantMessageView.tsx` — segment builder
    (`buildSegments`), offset mapper (`getOffsetsFromRange`), selection
    handler (`handleSelection`);
  * `src/unnamed/part_001` — a second revision of the same component whose
    `buildSegments` carries the skip / `effectiveStart` overlap resolution
    (embedded as `buildSegmentsRev`);
  * `src/components/ChatExperience.tsx` — the annotation store and the
    chat-state operations (`handleSelectRange`, `saveAnnotation`,
    `deleteAnnotationForMessage`, `sendPrompt`);
  * `src/components/buildFollowupPrompt.ts` — the stand-alone follow-up
    prompt formatter.

Modelling conventions: JavaScript strings are Lean `String`s (one `Char`
per code unit); `Array.prototype.slice(a, b)` is `jsSlice`;
`Array.prototype.join(sep)` is `joinSep`; `String.prototype.trim` is
`jsTrim` over the JS whitespace class `jsWsChar`; the stable ES2019
`sort((a, b) => a.start - b.start)` is the stable insertion sort
`sortByStart`. The TS interface `Annotation` is embedded as the record
`Ann`, with its optional `snippet` field an `Option String`. React
`useState` cells are
gathered into the record `ChatState`, and each event handler becomes a
pure function from old state to new state; DOM-dependent inputs (the
current selection, client rectangles, generated ids, `Date.now()`) enter
as explicit arguments or snapshot records.
-/

/-- Record for the TS interface `Annotation` of `src/components/types.ts`
(`id`, `messageId`, `start`, `end`, `noteText`, `snippet?`, `createdAt`);
`end` is a Lean keyword, so that field is called `endPos`. -/
structure Ann where
  id : String
  messageId : String
  start : Nat
  endPos : Nat
  noteText : String
  snippet : Option String
  createdAt : Nat
  deriving DecidableEq, Repr

/-- Render segment produced by `buildSegments`: a slice of the plain text,
tagged with the covering record or plain (`src/components/AssistantMessageView.tsx`,
line 176: `{ text: string; annotation?: Annotation }`); the optional
covering record is the field `tag`. -/
structure Segment where
  text : String
  tag : Option Ann
  deriving DecidableEq, Repr

/-- JavaScript `String.prototype.slice(a, b)` for non-negative indices:
the characters in `[a, min b (length))`, empty when `a ≥ b`. -/
def jsSlice (s : String) (a b : Nat) : String :=
  ⟨(s.data.take b).drop a⟩

/-- JavaScript `String.prototype.slice(a)`: the characters from `a` on. -/
def jsSliceFrom (s : String) (a : Nat) : String :=
  ⟨s.data.drop a⟩

/-- The comparison used by every `sort((a, b) => a.start - b.start)` call
in the sources: ascending by `start`. -/
def startLE (x y : Ann) : Prop := x.start ≤ y.start

instance : DecidableRel startLE := fun x y => Nat.decLe x.start y.start

instance : IsTotal Ann startLE := ⟨fun x y => Nat.le_total x.start y.start⟩

instance : IsTrans Ann startLE := ⟨fun _ _ _ h h' => Nat.le_trans h h'⟩

/-- Stable sort by `start` ascending; ES2019 `Array.prototype.sort` is
required to be stable, and `List.insertionSort` is the standard stable
sort. -/
def sortByStart (l : List Ann) : List Ann :=
  List.insertionSort startLE l

/-- Loop body of `buildSegments` (`src/components/AssistantMessageView.tsx`,
lines 181-187): walk the sorted records, emitting a plain segment for any
gap before the record and a tagged segment for `[start, end)`, moving the
cursor to `end`. Returns the emitted segments and the final cursor. -/
def segmentsLoop (text : String) : List Ann → Nat → List Segment × Nat
  | [], cursor => ([], cursor)
  | a :: rest, cursor =>
    let pre : List Segment :=
      if a.start > cursor then [{ text := jsSlice text cursor a.start, tag := none }] else []
    let tail := segmentsLoop text rest a.endPos
    (pre ++ { text := jsSlice text a.start a.endPos, tag := some a } :: tail.1, tail.2)

/-- `buildSegments` of `src/components/AssistantMessageView.tsx`, lines
173-194: sort a copy by `start`, run the loop from cursor 0, then emit the
remainder `text.slice(cursor)` when the cursor has not reached the end. -/
def buildSegments (text : String) (l : List Ann) : List Segment :=
  let sorted := sortByStart l
  let result := segmentsLoop text sorted 0
  result.1 ++
    (if result.2 < text.length then [{ text := jsSliceFrom text result.2, tag := none }] else [])

/-- Loop body of the revised `buildSegments` of `src/unnamed/part_001`,
lines 237-253: a record ending at or before the cursor is skipped, and an
overlapping record is truncated to start at `effectiveStart = max start
cursor`. -/
def segmentsLoopRev (text : String) : List Ann → Nat → List Segment × Nat
  | [], cursor => ([], cursor)
  | a :: rest, cursor =>
    if a.endPos ≤ cursor then segmentsLoopRev text rest cursor
    else
      let effectiveStart := max a.start cursor
      let pre : List Segment :=
        if effectiveStart > cursor then
          [{ text := jsSlice text cursor effectiveStart, tag := none }] else []
      let tail := segmentsLoopRev text rest a.endPos
      (pre ++ { text := jsSlice text effectiveStart a.endPos, tag := some a } :: tail.1, tail.2)

/-- The revised `buildSegments` of `src/unnamed/part_001`, lines 230-260. -/
def buildSegmentsRev (text : String) (l : List Ann) : List Segment :=
  let sorted := sortByStart l
  let result := segmentsLoopRev text sorted 0
  result.1 ++
    (if result.2 < text.length then [{ text := jsSliceFrom text result.2, tag := none }] else [])

/-- Concatenation of the segments' text fields in order
(`concat(build(T,A).map(seg => seg.text))` of the spec). -/
def segsText : List Segment → String
  | [] => ""
  | g :: rest => g.text ++ segsText rest

/-! Concrete data used by the evaluation theorems: the spec's own
15-character example with the overlapping ranges `{0,10}` and `{5,15}`,
plus a record fully contained in the first. -/

def demoText : String := "abcdefghijklmno"

def demoA1 : Ann :=
  { id := "a1", messageId := "m1", start := 0, endPos := 10,
    noteText := "first", snippet := some "abcdefghij", createdAt := 0 }

def demoA2 : Ann :=
  { id := "a2", messageId := "m1", start := 5, endPos := 15,
    noteText := "second", snippet := some "fghijklmno", createdAt := 1 }

def demoA3 : Ann :=
  { id := "a3", messageId := "m1", start := 2, endPos := 4,
    noteText := "inner", snippet := some "cd", createdAt := 2 }

/-! Whitespace, trimming and joining, embedded from the JavaScript string
primitives the formatters use. -/

/-- The JavaScript regexp class `\\s` (and the set `String.prototype.trim`
strips): space, tab, LF, VT, FF, CR, NBSP, Ogham space mark, the U+2000
spaces, LS, PS, NNBSP, MMSP, ideographic space and the BOM. -/
def jsWsChar (c : Char) : Bool :=
  c == ' ' || c == '\t' || c == '\n' || c == '\x0b' || c == '\x0c' || c == '\r' ||
  c == '\u00A0' || c == '\u1680' ||
  (decide ('\u2000' ≤ c) && decide (c ≤ '\u200A')) ||
  c == '\u2028' || c == '\u2029' || c == '\u202F' || c == '\u205F' ||
  c == '\u3000' || c == '\uFEFF'

/-- List-level body of `String.prototype.trim()`: drop whitespace from the
front, then from the back (via reverse). -/
def trimWs (l : List Char) : List Char :=
  ((l.dropWhile jsWsChar).reverse.dropWhile jsWsChar).reverse

/-- JavaScript `String.prototype.trim()`: strip leading and trailing
whitespace. -/
def jsTrim (s : String) : String :=
  ⟨trimWs s.data⟩

/-- No-two-adjacent-whitespace relation: a whitespace character is never
followed by another one. -/
def noWsRun (x y : Char) : Prop := jsWsChar x = true → jsWsChar y = false

/-- Worker for `replace(/\\s+/g, " ")`: the flag records whether a
whitespace run is already open, so each maximal run contributes exactly
one space at its first character. -/
def collapseWsAux : Bool → List Char → List Char
  | _, [] => []
  | inRun, c :: rest =>
    if jsWsChar c then
      if inRun then collapseWsAux true rest
      else ' ' :: collapseWsAux true rest
    else c :: collapseWsAux false rest

/-- JavaScript `passage.replace(/\\s+/g, " ")`: collapse every whitespace
run to a single space. -/
def replaceWsRuns (s : String) : String :=
  ⟨collapseWsAux false s.data⟩

/-- JavaScript `Array.prototype.join(sep)`: the separator goes between
elements only. -/
def joinSep (sep : String) : List String → String
  | [] => ""
  | [x] => x
  | x :: xs => x ++ sep ++ joinSep sep xs

/-! The stand-alone follow-up formatter
(`src/components/buildFollowupPrompt.ts`). -/

/-- Passage source of `buildFollowupPrompt`, lines 14-17: the cached
snippet when it is non-empty, else the live slice of the plain text. -/
def passageSource (messagePlainText : String) (a : Ann) : String :=
  match a.snippet with
  | some s => if s.length ≠ 0 then s else jsSlice messagePlainText a.start a.endPos
  | none => jsSlice messagePlainText a.start a.endPos

/-- Truncation of `buildFollowupPrompt`, lines 19-20: a passage longer than
160 characters becomes its first 157 characters followed by `...`. -/
def truncatePassage (passageRaw : String) : String :=
  if passageRaw.length > 160 then jsSlice passageRaw 0 157 ++ "..." else passageRaw

/-- Normalisation of `buildFollowupPrompt`, line 21:
`passage.replace(/\\s+/g, " ").trim()`. -/
def cleanPassage (passage : String) : String :=
  jsTrim (replaceWsRuns passage)

/-- The quoted passage `buildFollowupPrompt` emits for one record. -/
def passageOf (messagePlainText : String) (a : Ann) : String :=
  cleanPassage (truncatePassage (passageSource messagePlainText a))

/-- Note rendering of `buildFollowupPrompt`, line 22:
`annotation.noteText.trim() || "(no note text)"`. -/
def followupNote (a : Ann) : String :=
  if jsTrim a.noteText = "" then "(no note text)" else jsTrim a.noteText

/-- One enumerated entry of `buildFollowupPrompt`, line 23. -/
def followupItem (messagePlainText : String) (idx : Nat) (a : Ann) : String :=
  toString (idx + 1) ++ ") \"" ++ passageOf messagePlainText a ++ "\" — " ++ followupNote a

/-- The stand-alone formatter `buildFollowupPrompt` of
`src/components/buildFollowupPrompt.ts` (exported but never imported by
the app): canned fallback for an empty list, otherwise a sorted, numbered
snippet-and-note listing. -/
def buildFollowupPrompt (l : List Ann) (messagePlainText : String) : String :=
  if l.length = 0 then "Please share your questions or edits about the previous response."
  else
    let sorted := sortByStart l
    let items := joinSep "\n" (sorted.enum.map (fun p => followupItem messagePlainText p.1 p.2))
    "Please address my highlights from your previous answer:\n" ++ items ++
      "\n\nUse the note beside each passage to guide fixes."

/-- Call-effect view of `buildSegments` for the frame property: the
result paired with the contents of the caller's array after the call. The
source sorts `annotations.slice()` (`AssistantMessageView.tsx`, line 177),
so the in-place `sort` mutates only the copy and the caller's array still
holds the input list in input order; had the source called
`annotations.sort(...)` directly, the second component would be
`sortByStart l`. -/
def buildSegmentsCall (text : String) (l : List Ann) : List Segment × List Ann :=
  (buildSegments text l, l)

/-- Call-effect view of `buildFollowupPrompt`: the source sorts the spread
copy `[...annotations]` (`buildFollowupPrompt.ts`, line 11), leaving the
argument array unchanged. -/
def buildFollowupPromptCall (l : List Ann) (mpt : String) : String × List Ann :=
  (buildFollowupPrompt l mpt, l)

/-! The outbound prompt actually sent: the inline formatter of `sendPrompt`
(`src/components/ChatExperience.tsx`, lines 223-241). -/

/-- Snippet rendering of the inline formatter, line 229:
`ann.snippet && ann.snippet.length ? ann.snippet : ""`. -/
def sendSnippet (a : Ann) : String :=
  match a.snippet with
  | some s => if s.length ≠ 0 then s else ""
  | none => ""

/-- One entry of the inline formatter, lines 228-233: the note part is
omitted entirely when the trimmed note is empty. -/
def noteContextItem (idx : Nat) (a : Ann) : String :=
  let snippet := sendSnippet a
  let note := jsTrim a.noteText
  let label := note
  toString (idx + 1) ++ ") \"" ++ snippet ++ "\"" ++
    (if label ≠ "" then " — " ++ label else "")

/-- `allNoteContext` of `sendPrompt`, lines 224-235: entries in stored
order (`allAnnotations.slice().map(...)`, no sort), joined by newlines. -/
def allNoteContext (l : List Ann) : String :=
  if l.length > 0 then joinSep "\n" (l.enum.map (fun p => noteContextItem p.1 p.2)) else ""

/-- `fullUserMessage` of `sendPrompt`, lines 237-239: the trimmed user
text and the `Notes:` block, dropping empty parts
(`[userText, ...].filter(Boolean).join("\n\n")`). This is the spec's
`formatOutboundPrompt(userText, annotations)`. -/
def formatOutboundPrompt (userText : String) (l : List Ann) : String :=
  let ctx := allNoteContext l
  joinSep "\n\n"
    (List.filter (fun s => s != "") [userText, if ctx != "" then "Notes:\n" ++ ctx else ""])

/-- Modelled from the spec: the outbound formatter as claim C5 words it —
entries sorted by `start` ascending and an empty note rendered as the
placeholder `(no note text)` — kept alongside `formatOutboundPrompt` only
to compare the code against the claim. -/
def formatOutboundPromptClaim (userText : String) (l : List Ann) : String :=
  let sorted := sortByStart l
  let ctx :=
    if sorted.length > 0 then
      joinSep "\n" (sorted.enum.map (fun p =>
        toString (p.1 + 1) ++ ") \"" ++ sendSnippet p.2 ++ "\" — " ++ followupNote p.2))
    else ""
  joinSep "\n\n"
    (List.filter (fun s => s != "") [userText, if ctx != "" then "Notes:\n" ++ ctx else ""])

/-! Chat state (`src/components/ChatExperience.tsx`): the `useState` cells
the embedded handlers read or write, gathered into one record. Cells that
only drive presentation (`message`, `pulseAnnotationId`, `isMobile`) and
the DOM side effects (`window.getSelection().removeAllRanges()`, scrolling)
are outside the model. -/

inductive ToolbarMode where
  | cta
  | note
  deriving DecidableEq, Repr

inductive ChatRole where
  | user
  | assistant
  deriving DecidableEq, Repr

/-- The `ChatEntry` record of `ChatExperience.tsx`, lines 58-65. -/
structure ChatEntry where
  id : String
  role : ChatRole
  content : String
  html : Option String
  pending : Bool
  createdAt : Option Nat
  deriving DecidableEq, Repr

/-- The modelled `useState` cells of `ChatExperience`. `annotationsByMessage`
is the `Record<string, Annotation[]>` as an insertion-ordered key-value
list. -/
structure ChatState where
  activeMessageId : String
  activeMessagePlainText : String
  annotationsByMessage : List (String × List Ann)
  pendingRange : Option (Nat × Nat)
  toolbarPosition : Option (Int × Int)
  toolbarNoteText : String
  selectionError : Option String
  composerValue : String
  editingId : Option String
  toolbarMode : ToolbarMode
  selectedText : String
  showMobileModal : Bool
  conversation : List ChatEntry
  isSending : Bool
  deriving DecidableEq, Repr

/-- Lookup `current[messageId] ?? []`, as every store access writes it
(`ChatExperience.tsx` lines 83, 109, 140, 181, 414). -/
def getAnns (m : List (String × List Ann)) (mid : String) : List Ann :=
  match m.find? (fun p => p.1 == mid) with
  | some p => p.2
  | none => []

/-- The record update `{ ...current, [messageId]: v }`: an existing key
keeps its position and gets the new value, a new key is appended. -/
def setAnns : List (String × List Ann) → String → List Ann → List (String × List Ann)
  | [], mid, v => [(mid, v)]
  | p :: rest, mid, v =>
    if p.1 == mid then (mid, v) :: rest else p :: setAnns rest mid v

/-- `Object.values(annotationsByMessage).flat()` (`ChatExperience.tsx`,
lines 84-87). -/
def allAnnotated (m : List (String × List Ann)) : List Ann :=
  (m.map Prod.snd).flatten

/-- `clearSelection` of `ChatExperience.tsx`, lines 89-100 (minus the two
DOM effects). -/
def clearSelection (st : ChatState) : ChatState :=
  { st with
    pendingRange := none, toolbarPosition := none, toolbarNoteText := "",
    selectionError := none, editingId := none, toolbarMode := ToolbarMode.cta,
    selectedText := "", showMobileModal := false }

/-- The overlap query of `handleSelectRange` (`ChatExperience.tsx`, lines
110-112): the first stored record with `start < existing.end && end >
existing.start`; this is the spec's `findOverlapping`. -/
def findOverlapping (anns : List Ann) (start endv : Nat) : Option Ann :=
  anns.find? (fun ann => decide (start < ann.endPos) && decide (endv > ann.start))

/-- `handleSelectRange` of `ChatExperience.tsx`, lines 102-124. -/
def handleSelectRange (range : Nat × Nat) (position : Int × Int) (selected : String)
    (targetMessageId targetPlainText : String) (st : ChatState) : ChatState :=
  let targetAnns := getAnns st.annotationsByMessage targetMessageId
  let overlapping := findOverlapping targetAnns range.1 range.2
  { st with
    selectionError := none,
    pendingRange := some range,
    toolbarPosition := some position,
    activeMessageId := targetMessageId,
    activeMessagePlainText := targetPlainText,
    toolbarMode := if overlapping.isSome then ToolbarMode.note else ToolbarMode.cta,
    editingId := overlapping.map (fun o => o.id),
    toolbarNoteText := match overlapping with | some o => o.noteText | none => "",
    selectedText := (overlapping.bind (fun o => o.snippet)).getD selected,
    showMobileModal := false }

/-- The per-record rewrite of the editing branch of `saveAnnotation`
(`ChatExperience.tsx`, lines 144-152): replace the note with the trimmed
toolbar text and the snippet with the JS truthiness chain
`snippet || annotation.snippet || snippetFromRange`. -/
def updatedRecord (trimmed snippet snippetFromRange : String) (a : Ann) : Ann :=
  { a with
    noteText := trimmed,
    snippet := some (if snippet ≠ "" then snippet
      else match a.snippet with
        | some sOld => if sOld ≠ "" then sOld else snippetFromRange
        | none => snippetFromRange) }

/-- `saveAnnotation` of `ChatExperience.tsx`, lines 126-168 (the name is
shortened here; see the note on `Ann`): commit the pending selection as a
new record, or rewrite the edited record's note and snippet, then clear
the session. `newId` stands for `generateId()` and `now` for
`Date.now()`. -/
def saveAnn (newId : String) (now : Nat) (st : ChatState) : ChatState :=
  match st.pendingRange with
  | none => st
  | some pendingRange =>
    let trimmed := jsTrim st.toolbarNoteText
    let snippetFromSelection := jsTrim st.selectedText
    let snippetFromRange := jsSlice st.activeMessagePlainText pendingRange.1 pendingRange.2
    let snippet :=
      if snippetFromSelection.length > 0 then snippetFromSelection
      else if snippetFromRange.length > 0 then snippetFromRange
      else ""
    let existing := getAnns st.annotationsByMessage st.activeMessageId
    let updated :=
      match st.editingId with
      | some eid =>
        setAnns st.annotationsByMessage st.activeMessageId
          (existing.map (fun a =>
            if a.id = eid then updatedRecord trimmed snippet snippetFromRange a else a))
      | none =>
        setAnns st.annotationsByMessage st.activeMessageId
          (existing ++ [{ id := newId, messageId := st.activeMessageId,
                          start := pendingRange.1, endPos := pendingRange.2,
                          noteText := trimmed, snippet := some snippet, createdAt := now }])
    clearSelection { st with annotationsByMessage := updated }

/-- `deleteAnnotationForMessage` of `ChatExperience.tsx`, lines 179-187:
filter the record out of the message's list, then clear the session when
that message is the active one. -/
def deleteAnnotationForMessage (messageId annId : String) (st : ChatState) : ChatState :=
  let existing := getAnns st.annotationsByMessage messageId
  let remaining := existing.filter (fun a => a.id != annId)
  let st2 := { st with annotationsByMessage := setAnns st.annotationsByMessage messageId remaining }
  if messageId = st.activeMessageId then clearSelection st2 else st2

/-- Synchronous part of `sendPrompt` (`ChatExperience.tsx`, lines 221-267,
up to the `fetch`): format the outbound prompt, refuse to send when it is
empty, otherwise clear every message's records, reset the session, append
the user entry and the pending assistant entry, and mark sending.
`newUserId`, `newAssistantId` stand for `generateId()` and `now` for
`Date.now()`; the network continuation is outside the core. -/
def sendPromptSync (newUserId newAssistantId : String) (now : Nat) (st : ChatState) :
    ChatState :=
  if st.isSending then st
  else
    let userText := jsTrim st.composerValue
    let fullUserMessage := formatOutboundPrompt userText (allAnnotated st.annotationsByMessage)
    if fullUserMessage = "" then st
    else
      { st with
        annotationsByMessage := [],
        selectedText := "",
        pendingRange := none,
        toolbarPosition := none,
        toolbarNoteText := "",
        editingId := none,
        selectionError := none,
        showMobileModal := false,
        conversation := st.conversation ++
          [{ id := newUserId, role := ChatRole.user, content := fullUserMessage,
             html := none, pending := false, createdAt := none },
           { id := newAssistantId, role := ChatRole.assistant, content := "Thinking",
             html := none, pending := true, createdAt := some now }],
        composerValue := "",
        isSending := true }

/-! The offset mapper (`getOffsetsFromRange`,
`src/components/AssistantMessageView.tsx`, lines 146-170) over a snapshot
of the DOM range: a boundary either resolves to the length of the text
before it (`r.setEnd` succeeds, `resolvable = some n`) or throws
(`resolvable = none`), in which case the inner catch falls back to offset
0 or the container's full text length; `envFailure` models an exception
outside the two inner try blocks, absorbed by the outer catch into
`null`. -/

structure BoundarySnapshot where
  resolvable : Option Nat
  rawOffset : Int
  deriving DecidableEq, Repr

structure RangeSnapshot where
  startB : BoundarySnapshot
  endB : BoundarySnapshot
  envFailure : Bool
  deriving DecidableEq, Repr

/-- The inner `measure` closure, lines 151-161. -/
def measureBoundary (fullLen : Nat) (b : BoundarySnapshot) : Nat :=
  match b.resolvable with
  | some n => n
  | none => if b.rawOffset ≤ 0 then 0 else fullLen

/-- `getOffsetsFromRange`, lines 146-170: measure both boundaries, then
normalise so that `start ≤ end`; `none` only on an environment failure
reaching the outer catch. The function is total: no exception escapes. -/
def getOffsetsFromRange (fullLen : Nat) (r : RangeSnapshot) : Option (Nat × Nat) :=
  if r.envFailure then none
  else
    let start := measureBoundary fullLen r.startB
    let endv := measureBoundary fullLen r.endB
    some (if start ≤ endv then (start, endv) else (endv, start))

/-- Snapshot of the DOM selection as the deferred `run` closure of
`handleSelection` reads it (`AssistantMessageView.tsx`, lines 52-101):
whether a selection with at least one range exists, whether it is
collapsed, the range snapshot, and the toolbar position and selected text
the DOM would supply. -/
structure SelectionSnapshot where
  hasSelection : Bool
  collapsed : Bool
  range : RangeSnapshot
  position : Int × Int
  selectedText : String
  deriving DecidableEq, Repr

/-- The `run` closure of `handleSelection` (`AssistantMessageView.tsx`,
lines 49-105) wired to the `ChatExperience` callbacks (lines 435-438):
no selection → nothing; collapsed selection → clear the session; a `null`
or collapsed offset mapping → plain `return` (nothing at all); otherwise
hand the range to `handleSelectRange`. -/
def handleSelectionRun (isAnnotateMode : Bool) (contentLen : Nat) (snap : SelectionSnapshot)
    (targetMessageId targetPlainText : String) (st : ChatState) : ChatState :=
  if !isAnnotateMode then st
  else if !snap.hasSelection then st
  else if snap.collapsed then clearSelection st
  else
    match getOffsetsFromRange contentLen snap.range with
    | none => st
    | some offsets =>
      if offsets.1 = offsets.2 then st
      else
        handleSelectRange offsets snap.position snap.selectedText
          targetMessageId targetPlainText st

/-! Further concrete data for the evaluation and witness theorems. -/

/-- Store record touching a fresh selection `{5,10}` exactly at 5. -/
def demoTouch : Ann :=
  { id := "t1", messageId := "m1", start := 0, endPos := 5,
    noteText := "", snippet := none, createdAt := 0 }

/-- Later-starting record with an empty note (claim C5). -/
def demoB2 : Ann :=
  { id := "b2", messageId := "m1", start := 5, endPos := 6,
    noteText := "", snippet := some "b", createdAt := 1 }

/-- Earlier-starting record with a note, stored after `demoB2` (claim C5). -/
def demoB1 : Ann :=
  { id := "b1", messageId := "m1", start := 0, endPos := 1,
    noteText := "x", snippet := some "a", createdAt := 0 }

/-- Record whose cached snippet is 170 characters long (claim C9). -/
def demoLong : Ann :=
  { id := "c1", messageId := "m1", start := 0, endPos := 0,
    noteText := "",
    snippet := some "xxxxxxxxxxxxxxxxxxxxxxxxxxxxxxxxxxxxxxxxxxxxxxxxxxxxxxxxxxxxxxxxxxxxxxxxxxxxxxxxxxxxxxxxxxxxxxxxxxxxxxxxxxxxxxxxxxxxxxxxxxxxxxxxxxxxxxxxxxxxxxxxxxxxxxxxxxxxxxxxxxxxxx",
    createdAt := 0 }

/-- A populated mid-session state: one stored record, a pending range, an
editing id that matches no record, sendable composer text. -/
def demoState : ChatState :=
  { activeMessageId := "m1", activeMessagePlainText := demoText,
    annotationsByMessage := [("m1", [demoA1])],
    pendingRange := some (0, 3), toolbarPosition := some (0, 0),
    toolbarNoteText := "note", selectionError := none, composerValue := "hello",
    editingId := some "zz", toolbarMode := ToolbarMode.note, selectedText := "abc",
    showMobileModal := false, conversation := [], isSending := false }

/-- An idle state with no records and whitespace-only composer text. -/
def demoEmptyState : ChatState :=
  { activeMessageId := "m1", activeMessagePlainText := demoText,
    annotationsByMessage := [], pendingRange := none, toolbarPosition := none,
    toolbarNoteText := "", selectionError := none, composerValue := "  ",
    editingId := none, toolbarMode := ToolbarMode.cta, selectedText := "",
    showMobileModal := false, conversation := [], isSending := false }

/-- A selection snapshot whose offset mapping fails to `null` (outer-catch
environment failure) while the DOM selection itself is not collapsed. -/
def demoFailSnap : SelectionSnapshot :=
  { hasSelection := true, collapsed := false,
    range := { startB := { resolvable := some 0, rawOffset := 0 },
               endB := { resolvable := some 3, rawOffset := 3 },
               envFailure := true },
    position := (0, 0), selectedText := "abc" }

/-- A selection snapshot whose two boundaries resolve to the same offset,
so the mapping is collapsed (`start == end`). -/
def demoCollapsedSnap : SelectionSnapshot :=
  { hasSelection := true, collapsed := false,
    range := { startB := { resolvable := some 4, rawOffset := 4 },
               endB := { resolvable := some 4, rawOffset := 4 },
               envFailure := false },
    position := (0, 0), selectedText := "" }

/-- Claim C1: on the overlapping pair `{0,10}`, `{5,15}` over the
15-character text, the `AssistantMessageView.tsx` revision of
`buildSegments` emits `text[0:10]` and then `text[5:15]`, so the
concatenation of the segment texts duplicates characters 5-9 and is not
the original text: the coverage invariant fails under overlap. -/
theorem buildSegments_overlap_breaks_coverage :
    segsText (buildSegments demoText [demoA1, demoA2]) = "abcdefghijfghijklmno" ∧
    segsText (buildSegments demoText [demoA1, demoA2]) ≠ demoText := by
  constructor
  · rfl
  · decide

/-- Claim C2: the `AssistantMessageView.tsx` revision of `buildSegments`
neither truncates a later overlapping record to start at the cursor nor
skips a record that ends at or before the cursor: for `{0,10}` and
`{5,15}` the second tagged segment carries `text[5:15]` (not `text[10:15]`),
and the contained record `{2,4}` is still emitted, re-slicing `text[2:4]`. -/
theorem buildSegments_no_truncation_no_skip :
    buildSegments demoText [demoA1, demoA2] =
      [{ text := "abcdefghij", tag := some demoA1 },
       { text := "fghijklmno", tag := some demoA2 }] ∧
    jsSlice demoText 10 15 = "klmno" ∧
    ("fghijklmno" : String) ≠ "klmno" ∧
    buildSegments demoText [demoA1, demoA3] =
      [{ text := "abcdefghij", tag := some demoA1 },
       { text := "cd", tag := some demoA3 },
       { text := "efghijklmno", tag := none }] := by
  refine ⟨rfl, rfl, by decide, rfl⟩

/-! Coverage of the revised segment builder: list-level splice lemmas first. -/

theorem drop_take_append_drop {α : Type} (i j : Nat) (h : i ≤ j) (l : List α) :
    (l.take j).drop i ++ l.drop j = l.drop i := by
  rw [List.drop_take]
  have h2 : l.drop j = List.drop (j - i) (l.drop i) := by
    rw [List.drop_drop, Nat.add_sub_cancel' h]
  rw [h2, List.take_append_drop]

theorem segsText_data_cons (g : Segment) (r : List Segment) :
    (segsText (g :: r)).data = g.text.data ++ (segsText r).data := by
  simp [segsText, String.data_append]

theorem segsText_data_append (u v : List Segment) :
    (segsText (u ++ v)).data = (segsText u).data ++ (segsText v).data := by
  induction u with
  | nil => simp [segsText]
  | cons g r ih => simp [segsText_data_cons, ih]

theorem string_length_data (s : String) : s.length = s.data.length := rfl

theorem drop_take_self_nil {α : Type} (c : Nat) (l : List α) :
    (l.take c).drop c = ([] : List α) :=
  List.drop_eq_nil_of_le (by simp)

/-- Every segment the revised loop emits, concatenated, together with the
text from the final cursor on, recovers the text from the initial cursor
on — provided each record has `start ≤ end`. -/
theorem segmentsLoopRev_coverage (text : String) (l : List Ann) :
    ∀ (c : Nat), (∀ a ∈ l, a.start ≤ a.endPos) →
      (segsText (segmentsLoopRev text l c).1).data ++
          text.data.drop (segmentsLoopRev text l c).2 = text.data.drop c := by
  induction l with
  | nil => intro c _; simp [segmentsLoopRev, segsText]
  | cons a rest ih =>
    intro c h
    have ha : a.start ≤ a.endPos := h a (List.mem_cons_self a rest)
    have hrest : ∀ b ∈ rest, b.start ≤ b.endPos := fun b hb => h b (List.mem_cons_of_mem _ hb)
    by_cases hskip : a.endPos ≤ c
    · simpa [segmentsLoopRev, hskip] using ih c hrest
    · have hce : c < a.endPos := Nat.lt_of_not_le hskip
      have hces : c ≤ max a.start c := Nat.le_max_right _ _
      have hese : max a.start c ≤ a.endPos := max_le ha (Nat.le_of_lt hce)
      have hpre :
          (segsText (if max a.start c > c then
              [{ text := jsSlice text c (max a.start c), tag := none }] else [])).data
            = (text.data.take (max a.start c)).drop c := by
        by_cases hgap : max a.start c > c
        · simp [hgap, segsText, jsSlice, String.data_append]
        · have hec : max a.start c = c := Nat.le_antisymm (Nat.le_of_not_lt hgap) hces
          simp [hgap, segsText, hec, drop_take_self_nil]
      have ihe := ih a.endPos hrest
      simp only [segmentsLoopRev, if_neg hskip]
      rw [segsText_data_append, List.append_assoc, segsText_data_cons, List.append_assoc, hpre]
      show (text.data.take (max a.start c)).drop c ++
          ((jsSlice text (max a.start c) a.endPos).data ++
            ((segsText (segmentsLoopRev text rest a.endPos).1).data ++
              text.data.drop (segmentsLoopRev text rest a.endPos).2)) = text.data.drop c
      rw [ihe]
      show (text.data.take (max a.start c)).drop c ++
          ((text.data.take a.endPos).drop (max a.start c) ++ text.data.drop a.endPos)
            = text.data.drop c
      rw [drop_take_append_drop _ _ hese, drop_take_append_drop _ _ hces]

set_option maxRecDepth 4000

/-- Segment coverage holds for the revised `buildSegments` of
`src/unnamed/part_001` for every text and every list of records whose
ranges satisfy `start ≤ end`, overlapping or not: concatenating the
segment texts in order restores the text exactly. -/
theorem buildSegmentsRev_coverage (text : String) (l : List Ann)
    (h : ∀ a ∈ l, a.start ≤ a.endPos) :
    segsText (buildSegmentsRev text l) = text := by
  apply String.ext
  have hsorted : ∀ a ∈ sortByStart l, a.start ≤ a.endPos := by
    intro a hm
    exact h a (((List.perm_insertionSort startLE l).mem_iff).mp hm)
  have hloop := segmentsLoopRev_coverage text (sortByStart l) 0 hsorted
  simp only [buildSegmentsRev, segsText_data_append]
  by_cases hrem : (segmentsLoopRev text (sortByStart l) 0).2 < text.length
  · rw [if_pos hrem, segsText_data_cons]
    show (segsText (segmentsLoopRev text (sortByStart l) 0).1).data ++
        (text.data.drop (segmentsLoopRev text (sortByStart l) 0).2 ++ (segsText []).data)
          = text.data
    rw [show (segsText []).data = [] from rfl, List.append_nil, hloop, List.drop_zero]
  · have hnil : text.data.drop (segmentsLoopRev text (sortByStart l) 0).2 = [] :=
      List.drop_eq_nil_of_le
        (by rw [← string_length_data]; exact Nat.le_of_not_lt hrem)
    rw [hnil, List.append_nil] at hloop
    rw [if_neg hrem]
    show (segsText (segmentsLoopRev text (sortByStart l) 0).1).data ++ (segsText []).data
      = text.data
    rw [show (segsText []).data = [] from rfl, List.append_nil, hloop, List.drop_zero]

/-- Concatenation invariant for the unrevised loop, valid when every
record still ahead starts at or after the cursor and the records are
pairwise ordered end-before-start. -/
theorem segmentsLoop_coverage (text : String) (l : List Ann) :
    ∀ c : Nat, (∀ a ∈ l, a.start ≤ a.endPos) →
      List.Pairwise (fun x y => x.endPos ≤ y.start) l →
      (∀ a ∈ l, c ≤ a.start) →
      (segsText (segmentsLoop text l c).1).data ++
          text.data.drop (segmentsLoop text l c).2 = text.data.drop c := by
  induction l with
  | nil => intro c _ _ _; simp [segmentsLoop, segsText]
  | cons a rest ih =>
    intro c h hp hc
    have ha : a.start ≤ a.endPos := h a (List.mem_cons_self a rest)
    have hca : c ≤ a.start := hc a (List.mem_cons_self a rest)
    have hrest : ∀ b ∈ rest, b.start ≤ b.endPos := fun b hb => h b (List.mem_cons_of_mem _ hb)
    have hnext : ∀ b ∈ rest, a.endPos ≤ b.start := fun b hb => List.rel_of_pairwise_cons hp hb
    have hpre :
        (segsText (if a.start > c then
            [{ text := jsSlice text c a.start, tag := none }] else [])).data
          = (text.data.take a.start).drop c := by
      by_cases hgap : a.start > c
      · simp [hgap, segsText, jsSlice, String.data_append]
      · have hec : a.start = c := Nat.le_antisymm (Nat.le_of_not_lt hgap) hca
        simp [hgap, segsText, hec, drop_take_self_nil]
    have ihe := ih a.endPos hrest (List.pairwise_cons.mp hp).2 hnext
    simp only [segmentsLoop]
    rw [segsText_data_append, List.append_assoc, segsText_data_cons, List.append_assoc, hpre]
    show (text.data.take a.start).drop c ++
        ((jsSlice text a.start a.endPos).data ++
          ((segsText (segmentsLoop text rest a.endPos).1).data ++
            text.data.drop (segmentsLoop text rest a.endPos).2)) = text.data.drop c
    rw [ihe]
    show (text.data.take a.start).drop c ++
        ((text.data.take a.endPos).drop a.start ++ text.data.drop a.endPos)
          = text.data.drop c
    rw [drop_take_append_drop _ _ ha, drop_take_append_drop _ _ hca]

/-- Segment coverage does hold for the `AssistantMessageView.tsx`
`buildSegments` when the input ranges are valid (`start < end`) and
pairwise strictly disjoint: the failure of coverage is confined to
overlapping inputs. -/
theorem buildSegments_coverage_of_disjoint (text : String) (l : List Ann)
    (hv : ∀ a ∈ l, a.start < a.endPos)
    (hd : List.Pairwise (fun x y => x.endPos ≤ y.start ∨ y.endPos ≤ x.start) l) :
    segsText (buildSegments text l) = text := by
  apply String.ext
  have hperm := List.perm_insertionSort startLE l
  have hvs : ∀ a ∈ sortByStart l, a.start < a.endPos := fun a hm =>
    hv a (hperm.mem_iff.mp hm)
  have hds : List.Pairwise (fun x y => x.endPos ≤ y.start ∨ y.endPos ≤ x.start) (sortByStart l) :=
    (List.Perm.pairwise_iff (fun hxy => hxy.symm) hperm).mpr hd
  have hss : List.Pairwise startLE (sortByStart l) :=
    List.sorted_insertionSort startLE l
  have hchain : List.Pairwise (fun x y => x.endPos ≤ y.start) (sortByStart l) := by
    refine List.Pairwise.imp_of_mem ?_ (hss.and hds)
    intro x y hx hy hxy
    rcases hxy.2 with hle | hle
    · exact hle
    · exact absurd (Nat.lt_of_lt_of_le (hvs y hy) (Nat.le_trans hle hxy.1))
        (Nat.lt_irrefl y.start)
  have hloop := segmentsLoop_coverage text (sortByStart l) 0
    (fun a hm => Nat.le_of_lt (hvs a hm)) hchain (fun a _ => Nat.zero_le _)
  simp only [buildSegments, segsText_data_append]
  by_cases hrem : (segmentsLoop text (sortByStart l) 0).2 < text.length
  · rw [if_pos hrem, segsText_data_cons]
    show (segsText (segmentsLoop text (sortByStart l) 0).1).data ++
        (text.data.drop (segmentsLoop text (sortByStart l) 0).2 ++ (segsText []).data)
          = text.data
    rw [show (segsText []).data = [] from rfl, List.append_nil, hloop, List.drop_zero]
  · have hnil : text.data.drop (segmentsLoop text (sortByStart l) 0).2 = [] :=
      List.drop_eq_nil_of_le
        (by rw [← string_length_data]; exact Nat.le_of_not_lt hrem)
    rw [hnil, List.append_nil] at hloop
    rw [if_neg hrem]
    show (segsText (segmentsLoop text (sortByStart l) 0).1).data ++ (segsText []).data
      = text.data
    rw [show (segsText []).data = [] from rfl, List.append_nil, hloop, List.drop_zero]

/-! The overlap query and the outbound formatter. -/

/-- First-match characterisation of `List.find?`: a hit satisfies the
predicate and everything stored before it refutes it. -/
theorem find?_first_char {α : Type} (p : α → Bool) :
    ∀ (l : List α) (a : α), l.find? p = some a →
      p a = true ∧ ∃ l1 l2, l = l1 ++ a :: l2 ∧ ∀ b ∈ l1, p b = false := by
  intro l
  induction l with
  | nil => intro a h; cases h
  | cons x xs ih =>
    intro a h
    by_cases hpx : p x = true
    · rw [List.find?_cons_of_pos _ hpx] at h
      obtain rfl : x = a := Option.some.inj h
      exact ⟨hpx, [], xs, rfl, by intro b hb; cases hb⟩
    · rw [List.find?_cons_of_neg _ hpx] at h
      obtain ⟨hp, l1, l2, heq, hl1⟩ := ih a h
      refine ⟨hp, x :: l1, l2, by rw [heq]; rfl, ?_⟩
      intro b hb
      rcases List.mem_cons.mp hb with rfl | hb2
      · exact Bool.eq_false_iff.mpr hpx
      · exact hl1 b hb2

/-- Claim C4: the overlap query of `handleSelectRange` returns the first
record in stored order whose range strictly overlaps the fresh selection
(`start < existing.end && end > existing.start`); a hit overlaps, every
record stored before a hit does not, a miss means nothing overlaps, and
ranges touching at an endpoint do not count: the selection `{5,10}`
against a stored `{0,5}` finds no overlap. -/
theorem findOverlapping_first_match_strict :
    (∀ (anns : List Ann) (s e : Nat) (a : Ann),
        findOverlapping anns s e = some a →
        (s < a.endPos ∧ e > a.start) ∧
        ∃ l1 l2, anns = l1 ++ a :: l2 ∧
          ∀ b ∈ l1, ¬(s < b.endPos ∧ e > b.start)) ∧
    (∀ (anns : List Ann) (s e : Nat),
        findOverlapping anns s e = none ↔
          ∀ b ∈ anns, ¬(s < b.endPos ∧ e > b.start)) ∧
    findOverlapping [demoTouch] 5 10 = none := by
  refine ⟨?_, ?_, by decide⟩
  · intro anns s e a h
    obtain ⟨hp, l1, l2, heq, hl1⟩ := find?_first_char _ anns a h
    refine ⟨by simpa using hp, l1, l2, heq, ?_⟩
    intro b hb
    have hfb := hl1 b hb
    simpa using hfb
  · intro anns s e
    rw [findOverlapping, List.find?_eq_none]
    constructor
    · intro h b hb
      have := h b hb
      simpa using this
    · intro h b hb
      have := h b hb
      simpa using this

/-- The outbound formatter with no records at all returns the user text
unchanged (including the empty text). -/
theorem formatOutboundPrompt_nil (u : String) : formatOutboundPrompt u [] = u := by
  by_cases hu : u = ""
  · subst hu; rfl
  · have hbne : (u != "") = true := by
      simp only [bne_iff_ne]; exact hu
    simp [formatOutboundPrompt, allNoteContext, joinSep, hbne]

/-- Claim C3: with a whitespace-only composer and no stored records the
outbound formatter produces the empty string, and `sendPrompt` refuses to
send: the state is returned untouched (`if (!fullUserMessage) return`). -/
theorem formatOutboundPrompt_empty_not_sent :
    ∀ (uid aid : String) (now : Nat) (st : ChatState),
      jsTrim st.composerValue = "" →
      allAnnotated st.annotationsByMessage = [] →
      formatOutboundPrompt (jsTrim st.composerValue) (allAnnotated st.annotationsByMessage)
          = "" ∧
      sendPromptSync uid aid now st = st := by
  intro uid aid now st h1 h2
  have hmsg : formatOutboundPrompt (jsTrim st.composerValue)
      (allAnnotated st.annotationsByMessage) = "" := by
    rw [h1, h2]; rfl
  refine ⟨hmsg, ?_⟩
  by_cases hs : st.isSending
  · simp [sendPromptSync, hs]
  · simp [sendPromptSync, hs, hmsg]

/-- Witness for claim C3 at the concrete idle state. -/
theorem formatOutboundPrompt_empty_not_sent_witness :
    formatOutboundPrompt (jsTrim demoEmptyState.composerValue)
        (allAnnotated demoEmptyState.annotationsByMessage) = "" ∧
    sendPromptSync "u1" "as1" 7 demoEmptyState = demoEmptyState :=
  formatOutboundPrompt_empty_not_sent "u1" "as1" 7 demoEmptyState (by decide) (by decide)

theorem joinSep_cons_ne_empty (sep x : String) (xs : List String)
    (hx : 0 < x.length) : joinSep sep (x :: xs) ≠ "" := by
  cases xs with
  | nil =>
    intro hEq
    rw [show joinSep sep [x] = x from rfl] at hEq
    rw [hEq] at hx
    exact absurd hx (by decide)
  | cons y ys =>
    intro hEq
    have hl := congrArg String.length hEq
    rw [show joinSep sep (x :: y :: ys) = x ++ sep ++ joinSep sep (y :: ys) from rfl] at hl
    simp only [String.length_append] at hl
    rw [show ("" : String).length = 0 from rfl] at hl
    omega

theorem noteContextItem_length_pos (i : Nat) (a : Ann) :
    0 < (noteContextItem i a).length := by
  have h1 : noteContextItem i a =
      toString (i + 1) ++ ") \"" ++ sendSnippet a ++ "\"" ++
        (if jsTrim a.noteText ≠ "" then " — " ++ jsTrim a.noteText else "") := rfl
  rw [h1]
  simp only [String.length_append]
  have h2 : (0 : Nat) < ("\"" : String).length := by decide
  omega

theorem allNoteContext_unfold (l : List Ann) (h : l ≠ []) :
    allNoteContext l = joinSep "\n" (l.enum.map (fun p => noteContextItem p.1 p.2)) ∧
    allNoteContext l ≠ "" := by
  cases l with
  | nil => exact absurd rfl h
  | cons x xs =>
    constructor
    · simp [allNoteContext]
    · have hform : allNoteContext (x :: xs)
          = joinSep "\n" ((x :: xs).enum.map (fun p => noteContextItem p.1 p.2)) := by
        simp [allNoteContext]
      rw [hform, List.enum_cons, List.map_cons]
      exact joinSep_cons_ne_empty _ _ _ (noteContextItem_length_pos 0 x)

/-- Claim C5 counterexample: on the stored-order pair `demoB2` (start 5,
empty note) before `demoB1` (start 0, note "x") with user text "hi", the
outbound prompt of `sendPrompt` enumerates the start-5 record first (not
sorted by `start`) and renders the empty note as a bare quoted snippet
with no placeholder, so it differs from the claim-conformant rendering. -/
theorem outboundPrompt_not_sorted_no_placeholder :
    formatOutboundPrompt "hi" [demoB2, demoB1] = "hi\n\nNotes:\n1) \"b\"\n2) \"a\" — x" ∧
    formatOutboundPromptClaim "hi" [demoB2, demoB1] =
      "hi\n\nNotes:\n1) \"a\" — x\n2) \"b\" — (no note text)" ∧
    formatOutboundPrompt "hi" [demoB2, demoB1] ≠
      formatOutboundPromptClaim "hi" [demoB2, demoB1] := by
  refine ⟨rfl, rfl, by decide⟩

/-- Claim C5 as amended: for every non-empty record list the outbound
prompt of `sendPrompt` appends a `Notes:` block enumerating the records in
stored (insertion) order — not sorted by `start` — pairing each snippet
with its trimmed note, and a record whose trimmed note is empty is
rendered as its numbered quoted snippet alone, the note part omitted
rather than replaced by a placeholder. -/
theorem outboundPrompt_stored_order_omits_empty_note :
    ∀ (u : String) (l : List Ann), l ≠ [] →
      formatOutboundPrompt u l =
        joinSep "\n\n" (List.filter (fun s => s != "")
          [u, "Notes:\n" ++ joinSep "\n" (l.enum.map (fun p => noteContextItem p.1 p.2))]) ∧
      (∀ i a, jsTrim a.noteText = "" →
        noteContextItem i a = toString (i + 1) ++ ") \"" ++ sendSnippet a ++ "\"") ∧
      (∀ i a, jsTrim a.noteText ≠ "" →
        noteContextItem i a =
          toString (i + 1) ++ ") \"" ++ sendSnippet a ++ "\"" ++
            (" — " ++ jsTrim a.noteText)) := by
  intro u l hl
  obtain ⟨hctx, hne⟩ := allNoteContext_unfold l hl
  refine ⟨?_, ?_, ?_⟩
  · have hne2 : joinSep "\n" (l.enum.map (fun p => noteContextItem p.1 p.2)) ≠ "" :=
      hctx ▸ hne
    have hbne : (joinSep "\n" (l.enum.map (fun p => noteContextItem p.1 p.2)) != "") = true := by
      simp only [bne_iff_ne]; exact hne2
    simp only [formatOutboundPrompt, hctx, hbne, if_true]
  · intro i a hnote
    have h1 : noteContextItem i a =
        toString (i + 1) ++ ") \"" ++ sendSnippet a ++ "\"" ++
          (if jsTrim a.noteText ≠ "" then " — " ++ jsTrim a.noteText else "") := rfl
    rw [h1, if_neg (by simp [hnote]), String.append_empty]
  · intro i a hnote
    have h1 : noteContextItem i a =
        toString (i + 1) ++ ") \"" ++ sendSnippet a ++ "\"" ++
          (if jsTrim a.noteText ≠ "" then " — " ++ jsTrim a.noteText else "") := rfl
    rw [h1, if_pos hnote]

/-- Witness for the amended claim C5 at the concrete stored-order pair. -/
theorem outboundPrompt_stored_order_witness :
    formatOutboundPrompt "hi" [demoB2, demoB1] =
      joinSep "\n\n" (List.filter (fun s => s != "")
        ["hi", "Notes:\n" ++ joinSep "\n"
          (([demoB2, demoB1]).enum.map (fun p => noteContextItem p.1 p.2))]) ∧
    noteContextItem 0 demoB2 = toString (0 + 1) ++ ") \"" ++ sendSnippet demoB2 ++ "\"" := by
  obtain ⟨h1, h2, _⟩ :=
    outboundPrompt_stored_order_omits_empty_note "hi" [demoB2, demoB1] (by decide)
  exact ⟨h1, h2 0 demoB2 (by decide)⟩

/-- Claim C7: a successful `sendPrompt` submission resets the store to the
empty record map, so every message's set is empty afterwards, and the
outbound formatter applied to the emptied store returns exactly the user
text, whatever it is. -/
theorem sendPrompt_clears_every_message :
    ∀ (uid aid : String) (now : Nat) (st : ChatState),
      st.isSending = false →
      formatOutboundPrompt (jsTrim st.composerValue)
          (allAnnotated st.annotationsByMessage) ≠ "" →
      (sendPromptSync uid aid now st).annotationsByMessage = [] ∧
      (∀ mid, getAnns (sendPromptSync uid aid now st).annotationsByMessage mid = []) ∧
      (∀ u, formatOutboundPrompt u
          (allAnnotated (sendPromptSync uid aid now st).annotationsByMessage) = u) := by
  intro uid aid now st hs hmsg
  have habm : (sendPromptSync uid aid now st).annotationsByMessage = [] := by
    simp [sendPromptSync, hs, hmsg]
  refine ⟨habm, ?_, ?_⟩
  · intro mid; rw [habm]; rfl
  · intro u
    rw [habm]
    exact formatOutboundPrompt_nil u

/-- Witness for claim C7 at the populated sendable state. -/
theorem sendPrompt_clears_every_message_witness :
    (sendPromptSync "u1" "as1" 7 demoState).annotationsByMessage = [] ∧
    getAnns (sendPromptSync "u1" "as1" 7 demoState).annotationsByMessage "m1" = [] ∧
    formatOutboundPrompt "later"
        (allAnnotated (sendPromptSync "u1" "as1" 7 demoState).annotationsByMessage)
      = "later" := by
  obtain ⟨h1, h2, h3⟩ :=
    sendPrompt_clears_every_message "u1" "as1" 7 demoState rfl (by decide)
  exact ⟨h1, h2 "m1", h3 "later"⟩

/-! The selection handler's failure paths and the store's unknown-id
operations. -/

/-- Claim C6 counterexample: with a pending range `(0, 3)` in the session
and a non-collapsed selection whose offset mapping comes back `null`, the
selection handler leaves the pending range exactly as it was — it is not
cleared. -/
theorem handleSelection_unmappable_keeps_pending :
    getOffsetsFromRange 15 demoFailSnap.range = none ∧
    (handleSelectionRun true 15 demoFailSnap "m1" demoText demoState).pendingRange
      = some (0, 3) ∧
    some (0, 3) ≠ (none : Option (Nat × Nat)) := by
  refine ⟨rfl, rfl, by decide⟩

/-- Claim C6 as amended: the offset mapper absorbs its failures — without
an environment failure it always returns a normalised pair `start ≤ end`
(unresolvable boundaries fall back to offset 0 or the container length
rather than throwing) — and on a `null` or collapsed (`start == end`)
mapping result the selection handler returns early, leaving the whole
state, pending selection and record store included, exactly as it was; the
pending selection is cleared only when the DOM selection itself is
collapsed, before mapping. -/
theorem handleSelection_null_or_collapsed_noop :
    ∀ (len : Nat) (snap : SelectionSnapshot) (mid mpt : String) (st : ChatState),
      (snap.range.envFailure = false →
        ∃ p, getOffsetsFromRange len snap.range = some p ∧ p.1 ≤ p.2) ∧
      (snap.hasSelection = true → snap.collapsed = false →
        (getOffsetsFromRange len snap.range = none ∨
          (∃ k, getOffsetsFromRange len snap.range = some (k, k))) →
        handleSelectionRun true len snap mid mpt st = st) ∧
      (snap.hasSelection = true → snap.collapsed = true →
        handleSelectionRun true len snap mid mpt st = clearSelection st) := by
  intro len snap mid mpt st
  refine ⟨?_, ?_, ?_⟩
  · intro henv
    by_cases hle : measureBoundary len snap.range.startB ≤ measureBoundary len snap.range.endB
    · exact ⟨(measureBoundary len snap.range.startB, measureBoundary len snap.range.endB),
        by simp [getOffsetsFromRange, henv, hle], hle⟩
    · exact ⟨(measureBoundary len snap.range.endB, measureBoundary len snap.range.startB),
        by simp [getOffsetsFromRange, henv, hle], Nat.le_of_lt (Nat.lt_of_not_le hle)⟩
  · intro h1 h2 h3
    rcases h3 with hnone | ⟨k, hk⟩
    · simp [handleSelectionRun, h1, h2, hnone]
    · simp [handleSelectionRun, h1, h2, hk]
  · intro h1 h2
    simp [handleSelectionRun, h1, h2]

/-- Witness for the amended claim C6: the mapper normalises the concrete
collapsed snapshot and the handler leaves the concrete state untouched. -/
theorem handleSelection_noop_witness :
    (∃ p, getOffsetsFromRange 15 demoCollapsedSnap.range = some p ∧ p.1 ≤ p.2) ∧
    handleSelectionRun true 15 demoCollapsedSnap "m1" demoText demoState = demoState := by
  obtain ⟨h1, h2, _⟩ :=
    handleSelection_null_or_collapsed_noop 15 demoCollapsedSnap "m1" demoText demoState
  exact ⟨h1 rfl, h2 rfl rfl (Or.inr ⟨4, rfl⟩)⟩

theorem mem_getAnns_mem_all {m : List (String × List Ann)} {mid : String} {a : Ann}
    (ha : a ∈ getAnns m mid) : a ∈ allAnnotated m := by
  unfold getAnns at ha
  cases hf : m.find? (fun p => p.1 == mid) with
  | none => rw [hf] at ha; cases ha
  | some p =>
    rw [hf] at ha
    have hp : p ∈ m := List.mem_of_find?_eq_some hf
    unfold allAnnotated
    exact List.mem_flatten.mpr ⟨p.2, List.mem_map_of_mem Prod.snd hp, ha⟩

theorem getAnns_setAnns_self (m : List (String × List Ann)) (mid : String) (v : List Ann) :
    getAnns (setAnns m mid v) mid = v := by
  induction m with
  | nil => simp [setAnns, getAnns]
  | cons p rest ih =>
    by_cases hp : p.1 == mid
    · simp [setAnns, hp, getAnns]
    · simp [setAnns, hp, getAnns] at ih ⊢
      exact ih

theorem getAnns_setAnns_other (m : List (String × List Ann)) (mid other : String)
    (v : List Ann) (h : other ≠ mid) : getAnns (setAnns m mid v) other = getAnns m other := by
  induction m with
  | nil =>
    have hbne : (mid == other) = false := by
      simp only [beq_eq_false_iff_ne]; exact fun he => h he.symm
    simp [setAnns, getAnns, hbne]
  | cons p rest ih =>
    by_cases hp : p.1 == mid
    · have hpe : p.1 = mid := by simpa using hp
      have hbne : (mid == other) = false := by
        simp only [beq_eq_false_iff_ne]; exact fun he => h he.symm
      have hpo : (p.1 == other) = false := by
        rw [hpe]; exact hbne
      simp [setAnns, hp, getAnns, hbne, hpo]
    · by_cases hpo : p.1 == other
      · simp [setAnns, hp, getAnns, hpo]
      · simp [setAnns, hp, getAnns, hpo] at ih ⊢
        exact ih

/-- Writing a message's own list back (possibly via an identity rewrite)
changes no lookup. -/
theorem getAnns_setAnns_getAnns (m : List (String × List Ann)) (mid other : String) :
    getAnns (setAnns m mid (getAnns m mid)) other = getAnns m other := by
  by_cases h : other = mid
  · rw [h, getAnns_setAnns_self]
  · exact getAnns_setAnns_other m mid other _ h

theorem map_editIfMatch_of_unknown (eid : String) (u : Ann → Ann) (l : List Ann)
    (h : ∀ a ∈ l, a.id ≠ eid) :
    l.map (fun a => if a.id = eid then u a else a) = l := by
  induction l with
  | nil => rfl
  | cons x xs ih =>
    rw [List.map_cons, if_neg (h x (List.mem_cons_self x xs)),
      ih fun a ha => h a (List.mem_cons_of_mem _ ha)]

/-- Claim C8: an update (`saveAnnotation` in editing mode) or a delete
(`deleteAnnotationForMessage`) whose record id appears in no message's set
is a silent no-op on the store: both operations are total (nothing is
thrown) and, for every message id, the stored list reads back exactly as
before. -/
theorem unknown_id_update_delete_noop :
    ∀ (st : ChatState) (newId : String) (now : Nat) (eid mid annId : String),
      (st.editingId = some eid →
        (∀ a ∈ allAnnotated st.annotationsByMessage, a.id ≠ eid) →
        ∀ m, getAnns (saveAnn newId now st).annotationsByMessage m
          = getAnns st.annotationsByMessage m) ∧
      ((∀ a ∈ allAnnotated st.annotationsByMessage, a.id ≠ annId) →
        ∀ m, getAnns (deleteAnnotationForMessage mid annId st).annotationsByMessage m
          = getAnns st.annotationsByMessage m) := by
  intro st newId now eid mid annId
  constructor
  · intro heid hunknown m
    cases hpr : st.pendingRange with
    | none => simp [saveAnn, hpr]
    | some pr =>
      have hids : ∀ a ∈ getAnns st.annotationsByMessage st.activeMessageId, a.id ≠ eid :=
        fun a ha => hunknown a (mem_getAnns_mem_all ha)
      simp only [saveAnn, hpr, heid, clearSelection]
      rw [map_editIfMatch_of_unknown _ _ _ hids]
      exact getAnns_setAnns_getAnns st.annotationsByMessage st.activeMessageId m
  · intro hunknown m
    have hids : ∀ a ∈ getAnns st.annotationsByMessage mid, (a.id != annId) = true :=
      fun a ha => bne_iff_ne.mpr (hunknown a (mem_getAnns_mem_all ha))
    have hfilter : (getAnns st.annotationsByMessage mid).filter (fun a => a.id != annId)
        = getAnns st.annotationsByMessage mid := List.filter_eq_self.mpr hids
    have habm : (deleteAnnotationForMessage mid annId st).annotationsByMessage
        = setAnns st.annotationsByMessage mid (getAnns st.annotationsByMessage mid) := by
      by_cases hact : mid = st.activeMessageId
      · subst hact
        simp [deleteAnnotationForMessage, clearSelection, hfilter]
      · simp [deleteAnnotationForMessage, hact, hfilter]
    rw [habm]
    exact getAnns_setAnns_getAnns st.annotationsByMessage mid m

/-- Witness for claim C8 at the populated state: the editing id `zz` and
the delete id `nope` match no stored record, and message `m1` reads back
unchanged after both operations. -/
theorem unknown_id_update_delete_noop_witness :
    getAnns (saveAnn "n1" 9 demoState).annotationsByMessage "m1"
      = getAnns demoState.annotationsByMessage "m1" ∧
    getAnns (deleteAnnotationForMessage "m1" "nope" demoState).annotationsByMessage "m1"
      = getAnns demoState.annotationsByMessage "m1" := by
  obtain ⟨h1, h2⟩ := unknown_id_update_delete_noop demoState "n1" 9 "zz" "m1" "nope"
  exact ⟨h1 rfl (by decide) "m1", h2 (by decide) "m1"⟩

/-! Normalisation lemmas for the follow-up formatter's passage pipeline. -/

theorem collapseWsAux_length_le : ∀ (l : List Char) (b : Bool),
    (collapseWsAux b l).length ≤ l.length := by
  intro l
  induction l with
  | nil => intro b; simp [collapseWsAux]
  | cons c rest ih =>
    intro b
    by_cases hc : jsWsChar c
    · cases b with
      | true =>
        simp only [collapseWsAux, hc, if_true]
        exact Nat.le_succ_of_le (ih true)
      | false =>
        simp only [collapseWsAux, hc, if_true, List.length_cons]
        exact Nat.succ_le_succ (ih true)
    · simp only [collapseWsAux, hc, if_false, List.length_cons]
      exact Nat.succ_le_succ (ih false)

theorem head?_collapseWsAux_true : ∀ (l : List Char) (c : Char),
    (collapseWsAux true l).head? = some c → jsWsChar c = false := by
  intro l
  induction l with
  | nil => intro c h; cases h
  | cons x rest ih =>
    intro c h
    by_cases hx : jsWsChar x
    · rw [show collapseWsAux true (x :: rest) = collapseWsAux true rest by
        simp [collapseWsAux, hx]] at h
      exact ih c h
    · rw [show collapseWsAux true (x :: rest) = x :: collapseWsAux false rest by
        simp [collapseWsAux, hx]] at h
      obtain rfl : x = c := Option.some.inj h
      exact Bool.eq_false_iff.mpr hx

theorem chain'_collapseWsAux : ∀ (l : List Char) (b : Bool),
    List.Chain' noWsRun (collapseWsAux b l) := by
  intro l
  induction l with
  | nil => intro b; simp [collapseWsAux]
  | cons x rest ih =>
    intro b
    by_cases hx : jsWsChar x
    · cases b with
      | true =>
        rw [show collapseWsAux true (x :: rest) = collapseWsAux true rest by
          simp [collapseWsAux, hx]]
        exact ih true
      | false =>
        rw [show collapseWsAux false (x :: rest) = ' ' :: collapseWsAux true rest by
          simp [collapseWsAux, hx]]
        refine List.chain'_cons'.mpr ⟨?_, ih true⟩
        intro y hy
        intro _
        exact head?_collapseWsAux_true rest y hy
    · rw [show collapseWsAux b (x :: rest) = x :: collapseWsAux false rest by
        simp [collapseWsAux, hx]]
      refine List.chain'_cons'.mpr ⟨?_, ih false⟩
      intro y _
      intro hxw
      exact absurd hxw (Bool.eq_false_iff.mpr hx ▸ by simp [Bool.eq_false_iff.mpr hx])

theorem head?_dropWhile_false (p : Char → Bool) (l : List Char) (c : Char)
    (h : (l.dropWhile p).head? = some c) : p c = false := by
  have hm := List.head?_dropWhile_not p l
  rw [h] at hm
  exact hm

theorem getLast?_of_suffix {α : Type} {l1 l2 : List α} {c : α}
    (hs : l2 <:+ l1) (hc : l2.getLast? = some c) : l1.getLast? = some c := by
  obtain ⟨t, rfl⟩ := hs
  rw [List.getLast?_append, hc]
  rfl

theorem chain'_trimWs {l : List Char} (h : List.Chain' noWsRun l) :
    List.Chain' noWsRun (trimWs l) := by
  have h1 : List.Chain' noWsRun (l.dropWhile jsWsChar) :=
    h.suffix (List.dropWhile_suffix _)
  have h2 : List.Chain' (flip noWsRun) (l.dropWhile jsWsChar).reverse :=
    (List.chain'_reverse).mpr (by
      have : flip (flip noWsRun) = noWsRun := rfl
      rw [this]; exact h1)
  have h3 : List.Chain' (flip noWsRun) ((l.dropWhile jsWsChar).reverse.dropWhile jsWsChar) :=
    h2.suffix (List.dropWhile_suffix _)
  exact (List.chain'_reverse).mpr h3

theorem head?_trimWs {l : List Char} {c : Char} (h : (trimWs l).head? = some c) :
    jsWsChar c = false := by
  unfold trimWs at h
  rw [List.head?_reverse] at h
  have hlast : ((l.dropWhile jsWsChar).reverse).getLast? = some c :=
    getLast?_of_suffix (List.dropWhile_suffix _) h
  rw [List.getLast?_reverse] at hlast
  exact head?_dropWhile_false _ _ _ hlast

theorem getLast?_trimWs {l : List Char} {c : Char} (h : (trimWs l).getLast? = some c) :
    jsWsChar c = false := by
  unfold trimWs at h
  rw [List.getLast?_reverse] at h
  exact head?_dropWhile_false _ _ _ h

theorem trimWs_length_le (l : List Char) : (trimWs l).length ≤ l.length := by
  unfold trimWs
  rw [List.length_reverse]
  calc ((l.dropWhile jsWsChar).reverse.dropWhile jsWsChar).length
      ≤ (l.dropWhile jsWsChar).reverse.length :=
        (List.dropWhile_suffix _).length_le
    _ = (l.dropWhile jsWsChar).length := List.length_reverse _
    _ ≤ l.length := (List.dropWhile_suffix _).length_le

theorem cleanPassage_length_le (s : String) : (cleanPassage s).length ≤ s.length := by
  have h1 : (cleanPassage s).length = (trimWs (collapseWsAux false s.data)).length := rfl
  rw [h1, string_length_data]
  calc (trimWs (collapseWsAux false s.data)).length
      ≤ (collapseWsAux false s.data).length := trimWs_length_le _
    _ ≤ s.data.length := collapseWsAux_length_le _ false

theorem truncatePassage_length_le (s : String) : (truncatePassage s).length ≤ 160 := by
  by_cases h : s.length > 160
  · have hlen : (jsSlice s 0 157).length = 157 := by
      rw [string_length_data]
      show ((s.data.take 157).drop 0).length = 157
      rw [List.drop_zero, List.length_take]
      exact Nat.min_eq_left (by rw [string_length_data] at h; omega)
    unfold truncatePassage
    rw [if_pos h, String.length_append, hlen,
      show ("..." : String).length = 3 from rfl]
  · unfold truncatePassage
    rw [if_neg h]
    omega

/-- Claim C9: the quoted passage the follow-up formatter emits for a
record is at most 160 characters; a source passage longer than 160
characters is first replaced by its first 157 characters followed by
`...`; and the emitted passage is whitespace-normalised — no whitespace
character is followed by another one, and it neither starts nor ends with
whitespace — so it need not be the stored snippet verbatim. -/
theorem passage_bound_and_normalised :
    ∀ (mpt : String) (a : Ann),
      (passageOf mpt a).length ≤ 160 ∧
      ((passageSource mpt a).length > 160 →
        passageOf mpt a = cleanPassage (jsSlice (passageSource mpt a) 0 157 ++ "...")) ∧
      List.Chain' noWsRun (passageOf mpt a).data ∧
      (∀ c, (passageOf mpt a).data.head? = some c → jsWsChar c = false) ∧
      (∀ c, (passageOf mpt a).data.getLast? = some c → jsWsChar c = false) := by
  intro mpt a
  have hdata : (passageOf mpt a).data
      = trimWs (collapseWsAux false (truncatePassage (passageSource mpt a)).data) := rfl
  refine ⟨?_, ?_, ?_, ?_, ?_⟩
  · calc (passageOf mpt a).length
        ≤ (truncatePassage (passageSource mpt a)).length := cleanPassage_length_le _
      _ ≤ 160 := truncatePassage_length_le _
  · intro h
    unfold passageOf truncatePassage
    rw [if_pos h]
  · exact hdata ▸ chain'_trimWs (chain'_collapseWsAux _ false)
  · intro c hc
    rw [hdata] at hc
    exact head?_trimWs hc
  · intro c hc
    rw [hdata] at hc
    exact getLast?_trimWs hc

/-- Witness for claim C9 at the 170-character cached snippet: the bound,
the truncation shape and the normalisation at a concrete record. -/
theorem passage_bound_and_normalised_witness :
    (passageOf demoText demoLong).length ≤ 160 ∧
    passageOf demoText demoLong =
      cleanPassage (jsSlice (passageSource demoText demoLong) 0 157 ++ "...") ∧
    (∀ c, (passageOf demoText demoLong).data.head? = some c → jsWsChar c = false) := by
  obtain ⟨h1, h2, _, h4, _⟩ := passage_bound_and_normalised demoText demoLong
  exact ⟨h1, h2 (by decide), h4⟩

/-- Claim C10: neither `buildSegments` nor `buildFollowupPrompt` mutates
the record array it receives — each sorts a copy, so after either call the
caller's array holds exactly the input list in its original (insertion)
order, while the copy both functions walk is a sorted permutation of it;
both functions are functions of their arguments alone, so determinism
holds by construction in this embedding (and in the source, which reads no
outer mutable state in either function). -/
theorem formatters_leave_input_array_unchanged :
    ∀ (text mpt : String) (l : List Ann),
      (buildSegmentsCall text l).2 = l ∧
      (buildFollowupPromptCall l mpt).2 = l ∧
      List.Sorted startLE (sortByStart l) ∧
      (sortByStart l).Perm l ∧
      (buildSegmentsCall text l).1 = buildSegments text l ∧
      (buildFollowupPromptCall l mpt).1 = buildFollowupPrompt l mpt := by
  intro text mpt l
  exact ⟨rfl, rfl, List.sorted_insertionSort startLE l,
    List.perm_insertionSort startLE l, rfl, rfl⟩
